import Mathlib

/-!
Shallow embedding of the role-based session/redirect authorization flow and
the derived dashboard aggregates of the fit-hub management system.

The embedding models:
* the route guard `ProtectedRoute` (src/components/ProtectedRoute.tsx),
* the session store operations `fetchUserData` and `redirectBasedOnRole`
  (src/contexts/AuthContext.tsx),
* the admin dashboard aggregates `totalRevenue` and `fetchTopTrainer`
  (src/pages/admin/Dashboard.tsx),
* the member attendance toggle `fetchAttendanceHistory`, `handleCheckIn`,
  `handleCheckOut` (member dashboard page).

Asynchronous backend calls are modelled by passing their outcome as an
explicit argument (`Except` for queries that can fail); component state
updates and console logging are modelled as an explicit effect list applied
to an explicit state record.  Monetary amounts are modelled as rationals.
-/

namespace FitHub

/-- The authenticated identity held by the auth provider (supabase `User`). -/
structure User where
  id : String
  email : String
deriving DecidableEq, Repr

/-- The auth provider session object; only the identity it carries matters here. -/
structure Session where
  user : User
deriving DecidableEq, Repr

/-- The profile record fetched from the `users` table (interface `UserData`
in AuthContext.tsx). -/
structure UserData where
  id : String
  email : String
  name : String
  role : String
deriving DecidableEq, Repr

/-- The router location object; only `pathname` is relevant to the guard. -/
structure Location where
  pathname : String
deriving DecidableEq, Repr

/-- The session store state held by `AuthProvider` via `useState`. -/
structure AuthState where
  session : Option Session
  user : Option User
  userData : Option UserData
  isLoading : Bool
deriving DecidableEq, Repr

/-- One externally observable step a handler performs: a console log, a
`useState` setter call on the session store, or a router navigation. -/
inductive Effect where
  | log (msg : String)
  | logError (msg : String)
  | setSession (v : Option Session)
  | setUser (v : Option User)
  | setUserData (v : Option UserData)
  | setIsLoading (v : Bool)
  | navigate (target : String)
deriving DecidableEq, Repr

/-- How a single effect acts on the session store state.  Logs and
navigations do not touch the state. -/
def applyEffect (st : AuthState) : Effect → AuthState
  | Effect.log _ => st
  | Effect.logError _ => st
  | Effect.setSession v => { st with session := v }
  | Effect.setUser v => { st with user := v }
  | Effect.setUserData v => { st with userData := v }
  | Effect.setIsLoading v => { st with isLoading := v }
  | Effect.navigate _ => st

/-- Applying a whole effect list, first effect first. -/
def applyEffects (st : AuthState) (effs : List Effect) : AuthState :=
  effs.foldl applyEffect st

/-- What the route guard renders: the loading indicator, a `<Navigate>`
element (target, optional `state={ from }` payload, `replace` flag), or the
guarded children. -/
inductive GuardResult where
  | loading
  | navigate (target : String) (fromState : Option Location) (replace : Bool)
  | content
deriving DecidableEq, Repr

/-- The route guard `ProtectedRoute` (ProtectedRoute.tsx).  It reads
`user`, `userData`, `isLoading` from the auth context and the current
`location`, logs four debug lines, and decides what to render.  The JS
condition `allowedRoles.length > 0 && userData && !allowedRoles.includes
(userData.role)` short-circuits to false when `userData` is null. -/
def ProtectedRoute (isLoading : Bool) (user : Option User)
    (userData : Option UserData) (allowedRoles : List String)
    (location : Location) : GuardResult × List Effect :=
  let debugLogs := [Effect.log "Protected Route - User",
    Effect.log "Protected Route - User Data",
    Effect.log "Protected Route - Is Loading",
    Effect.log "Protected Route - Allowed Roles"]
  if isLoading then
    (GuardResult.loading, debugLogs)
  else if user.isNone then
    (GuardResult.navigate "/auth" (some location) true,
      debugLogs ++ [Effect.log "Protected Route - No user, redirecting to /auth"])
  else
    match userData with
    | some ud =>
      if allowedRoles.length > 0 && !(allowedRoles.contains ud.role) then
        let logs2 := debugLogs ++
          [Effect.log "Protected Route - User has incorrect role, redirecting to proper dashboard"]
        if ud.role == "admin" then
          (GuardResult.navigate "/admin" none true, logs2)
        else if ud.role == "trainer" then
          (GuardResult.navigate "/trainer" none true, logs2)
        else if ud.role == "member" then
          (GuardResult.navigate "/member" none true, logs2)
        else
          (GuardResult.navigate "/auth" none true, logs2)
      else
        (GuardResult.content,
          debugLogs ++ [Effect.log "Protected Route - Access granted"])
    | none =>
      (GuardResult.content,
        debugLogs ++ [Effect.log "Protected Route - Access granted"])

/-- The home route the guard redirects a mismatched role to (the Role
Resolver branch structure of ProtectedRoute.tsx lines 43..52). -/
def roleHome (role : String) : String :=
  if role == "admin" then "/admin"
  else if role == "trainer" then "/trainer"
  else if role == "member" then "/member"
  else "/auth"

/-- The JS `String.prototype.startsWith` prefix test, written over the
character list so that it evaluates by reduction. -/
def pathStartsWith (s pre : String) : Bool :=
  pre.toList.isPrefixOf s.toList

/-- Function `redirectBasedOnRole` (AuthContext.tsx lines 95..117): given the fetched
role and `window.location.pathname`, decide the post-login navigation target,
`none` meaning no navigation is performed. -/
def redirectBasedOnRole (role : String) (currentPath : String) : Option String :=
  if (role == "admin" && pathStartsWith currentPath "/admin")
      || (role == "trainer" && pathStartsWith currentPath "/trainer")
      || (role == "member" && pathStartsWith currentPath "/member") then
    none
  else if currentPath == "/auth" then
    if role == "admin" then some "/admin"
    else if role == "trainer" then some "/trainer"
    else if role == "member" then some "/member"
    else none
  else
    none

/-- The navigation effects `redirectBasedOnRole` emits. -/
def redirectEffects (role : String) (currentPath : String) : List Effect :=
  match redirectBasedOnRole role currentPath with
  | some target => [Effect.navigate target]
  | none => []

/-- Outcome of the awaited `users` table query inside `fetchUserData`:
the backend returned an error object, the query itself threw, the row was
fetched, or no error and no row. -/
inductive FetchOutcome where
  | errorResult (e : String)
  | thrown (e : String)
  | okData (d : UserData)
  | okNone
deriving DecidableEq, Repr

/-- Function `fetchUserData` (AuthContext.tsx lines 73..93) as the effect list it
performs for a given query outcome.  A returned error object is thrown and
lands, like a throwing query, in the catch block, which logs and sets
`userData` to null; a fetched row is stored and handed to
`redirectBasedOnRole`. -/
def fetchUserData (outcome : FetchOutcome) (currentPath : String) : List Effect :=
  match outcome with
  | FetchOutcome.errorResult e =>
    [Effect.logError ("Error fetching user data: " ++ e), Effect.setUserData none]
  | FetchOutcome.thrown e =>
    [Effect.logError ("Error fetching user data: " ++ e), Effect.setUserData none]
  | FetchOutcome.okData d =>
    Effect.setUserData (some d) :: redirectEffects d.role currentPath
  | FetchOutcome.okNone => []

/-- A `payments` table row; only the `amount` field is read by the revenue
aggregate.  The numeric string parsed by `parseFloat` is modelled as a
rational. -/
structure Payment where
  amount : ℚ
deriving DecidableEq, Repr

/-- The `totalRevenue` query function (admin Dashboard.tsx lines 83..97):
on error it logs and returns the 0 default, otherwise it reduces the fetched
rows, adding each `amount` onto a 0 accumulator.  First component is the
value the dashboard renders, second the console output. -/
def totalRevenue (outcome : Except String (List Payment)) : ℚ × List Effect :=
  match outcome with
  | Except.error e => (0, [Effect.logError ("Error fetching payments: " ++ e)])
  | Except.ok data => (data.foldl (fun total payment => total + payment.amount) 0, [])

/-- The step `trainerCounts[trainerId] = (trainerCounts[trainerId] || 0) + 1` on an
insertion-ordered string-keyed record, modelled as an association list. -/
def bump (acc : List (String × Nat)) (t : String) : List (String × Nat) :=
  match acc with
  | [] => [(t, 1)]
  | (k, v) :: rest => if k == t then (k, v + 1) :: rest else (k, v) :: bump rest t

/-- One iteration of the `data.forEach` loop building `trainerCounts`: a
null `trainer_id` is skipped by the guard `if (member.trainer_id)`. -/
def countStep (acc : List (String × Nat)) : Option String → List (String × Nat)
  | none => acc
  | some t => bump acc t

/-- The `trainerCounts` record built by `fetchTopTrainer` (admin
Dashboard.tsx lines 112..118) from the fetched member rows, each row
contributing its `trainer_id`. -/
def trainerCounts (rows : List (Option String)) : List (String × Nat) :=
  rows.foldl countStep []

/-- The fold of `fetchTopTrainer` lines 121..128 over the record entries:
starting from `(null, 0)`, an entry replaces the accumulator exactly when its
count is strictly greater than the running maximum. -/
def pickTopAux (acc : Option String × Nat) :
    List (String × Nat) → Option String × Nat
  | [] => acc
  | (tid, c) :: rest =>
    if c > acc.2 then pickTopAux (some tid, c) rest else pickTopAux acc rest

/-- The pair `(topTrainerId, maxCount)` as computed by `fetchTopTrainer`. -/
def pickTop (entries : List (String × Nat)) : Option String × Nat :=
  pickTopAux (none, 0) entries

/-- The `(topTrainerId, maxCount)` pair `fetchTopTrainer` derives from the
fetched member rows; `setTopTrainer` is called (and the dashboard shows a
name instead of the "N/A" default) exactly when the first component is
non-null. -/
def fetchTopTrainer (rows : List (Option String)) : Option String × Nat :=
  pickTop (trainerCounts rows)

/-- How many fetched member rows reference trainer `t`. -/
def memberCountOf (rows : List (Option String)) (t : String) : Nat :=
  rows.countP (fun r => r == some t)

/-- An `attendance` table row. -/
structure AttendanceRecord where
  id : String
  member_id : String
  check_in_time : String
  check_out_time : Option String
deriving DecidableEq, Repr

/-- The member dashboard state touched by the check-in/check-out toggle. -/
structure MemberState where
  isCheckedIn : Bool
  currentAttendanceId : Option String
  attendanceHistory : List AttendanceRecord
deriving DecidableEq, Repr

/-- Function `fetchAttendanceHistory` (member dashboard): on a query error the state
is left as it was (only a log happens); on success the history is stored and
`data.find(record => !record.check_out_time)` decides the toggle pair. -/
def fetchAttendanceHistory (st : MemberState)
    (outcome : Except String (List AttendanceRecord)) : MemberState :=
  match outcome with
  | Except.error _ => st
  | Except.ok data =>
    let st1 := { st with attendanceHistory := data }
    match data.find? (fun record => record.check_out_time.isNone) with
    | some currentAttendance =>
      { st1 with isCheckedIn := true,
                 currentAttendanceId := some currentAttendance.id }
    | none =>
      { st1 with isCheckedIn := false, currentAttendanceId := none }

/-- The row `handleCheckIn` inserts: the member id, the current time as
check-in time, and no check-out time (the insert object carries no
`check_out_time` field, so the column is null). -/
def newAttendanceRow (memberId now rowId : String) : AttendanceRecord :=
  { id := rowId, member_id := memberId, check_in_time := now,
    check_out_time := none }

/-- Function `handleCheckIn` (member dashboard): a no-op without a profile or on an
insert error; on success the inserted row is appended to the table, the
toggle pair is set to `(true, new id)` and the history is refetched.
`insertOk` is the insert outcome, `refetch` the outcome of the follow-up
`fetchAttendanceHistory` query.  Returns the new component state and the new
table contents. -/
def handleCheckIn (st : MemberState) (userData : Option UserData)
    (db : List AttendanceRecord) (now rowId : String) (insertOk : Bool)
    (refetch : Except String (List AttendanceRecord)) :
    MemberState × List AttendanceRecord :=
  match userData with
  | none => (st, db)
  | some ud =>
    if insertOk then
      let row := newAttendanceRow ud.id now rowId
      let st1 := { st with isCheckedIn := true,
                           currentAttendanceId := some row.id }
      (fetchAttendanceHistory st1 refetch, db ++ [row])
    else (st, db)

/-- The table after `handleCheckOut` updates `check_out_time` on the row
whose id matches `currentAttendanceId`. -/
def dbCheckOut (db : List AttendanceRecord) (rowId now : String) :
    List AttendanceRecord :=
  db.map (fun r =>
    if r.id == rowId then { r with check_out_time := some now } else r)

/-- Function `handleCheckOut` (member dashboard): a no-op when `currentAttendanceId`
is null and on an update error; on success the matching row gets the current
time as check-out time, the toggle pair is reset to `(false, null)` and the
history is refetched. -/
def handleCheckOut (st : MemberState) (db : List AttendanceRecord)
    (now : String) (updateOk : Bool)
    (refetch : Except String (List AttendanceRecord)) :
    MemberState × List AttendanceRecord :=
  match st.currentAttendanceId with
  | none => (st, db)
  | some rowId =>
    if updateOk then
      let st1 := { st with isCheckedIn := false, currentAttendanceId := none }
      (fetchAttendanceHistory st1 refetch, dbCheckOut db rowId now)
    else (st, db)

/-- Holds exactly for console-log effects. -/
def isLogEffect : Effect → Bool
  | Effect.log _ => true
  | _ => false

/-- C1 (counterexample): with loading false, an identity present and a null
profile, the guard renders the guarded content, not the loading state. -/
theorem C1_counterexample :
    (ProtectedRoute false (some { id := "u1", email := "m@fit.io" }) none
        ["trainer"] { pathname := "/admin" }).1 = GuardResult.content ∧
    (ProtectedRoute false (some { id := "u1", email := "m@fit.io" }) none
        ["trainer"] { pathname := "/admin" }).1 ≠ GuardResult.loading := by
  exact ⟨rfl, by decide⟩

/-- C1 (amended): for every session where loading is false, an identity is
present and the profile is still null, the guard renders the guarded
content — the role check is skipped when the profile is absent, so neither
the loading state nor a redirect is produced. -/
theorem C1_profilePending_rendersContent (u : User) (allowedRoles : List String)
    (loc : Location) :
    (ProtectedRoute false (some u) none allowedRoles loc).1 =
      GuardResult.content := rfl

/-- C2: with loading false and no authenticated identity, the guard renders
a replacing redirect to the sign-in route, carrying the current location in
the navigation state, for every profile value, allow-list and path. -/
theorem C2_noUser_redirectsToAuth (userData : Option UserData)
    (allowedRoles : List String) (loc : Location) :
    (ProtectedRoute false none userData allowedRoles loc).1 =
      GuardResult.navigate "/auth" (some loc) true := rfl

/-- C3: an admin session against the allow-list consisting of trainer is
redirected to the admin home route; in general every session whose fetched
role is one of admin, trainer, member and lies outside a non-empty
allow-list is redirected to its own home route and never sees the guarded
content. -/
theorem C3_wrongRole_redirectsToOwnHome :
    (∀ (u : User) (i e n : String) (loc : Location),
      (ProtectedRoute false (some u)
          (some { id := i, email := e, name := n, role := "admin" })
          ["trainer"] loc).1 = GuardResult.navigate "/admin" none true) ∧
    (∀ (u : User) (ud : UserData) (allowedRoles : List String) (loc : Location),
      (ud.role = "admin" ∨ ud.role = "trainer" ∨ ud.role = "member") →
      allowedRoles ≠ [] →
      allowedRoles.contains ud.role = false →
      (ProtectedRoute false (some u) (some ud) allowedRoles loc).1 =
        GuardResult.navigate (roleHome ud.role) none true ∧
      (ProtectedRoute false (some u) (some ud) allowedRoles loc).1 ≠
        GuardResult.content) := by
  constructor
  · intro u i e n loc
    rfl
  · intro u ud allowedRoles loc hrole hne hcon
    have hlen : allowedRoles.length > 0 := List.length_pos.mpr hne
    have hmem : ud.role ∉ allowedRoles := by simpa using hcon
    rcases hrole with h | h | h <;>
      · rw [h] at hmem
        simp [ProtectedRoute, roleHome, h, hmem, hlen]

/-- C3 witness: a trainer session against the allow-list consisting of
member is redirected to the trainer home route. -/
theorem C3_wrongRole_witness :
    (ProtectedRoute false (some { id := "u2", email := "t@fit.io" })
        (some { id := "p2", email := "t@fit.io", name := "T", role := "trainer" })
        ["member"] { pathname := "/member" }).1 =
      GuardResult.navigate (roleHome "trainer") none true ∧
    (ProtectedRoute false (some { id := "u2", email := "t@fit.io" })
        (some { id := "p2", email := "t@fit.io", name := "T", role := "trainer" })
        ["member"] { pathname := "/member" }).1 ≠ GuardResult.content :=
  C3_wrongRole_redirectsToOwnHome.2
    { id := "u2", email := "t@fit.io" }
    { id := "p2", email := "t@fit.io", name := "T", role := "trainer" }
    ["member"] { pathname := "/member" }
    (Or.inr (Or.inl rfl)) (by decide) (by decide)

/-- C4: with loading false, an identity present, a fetched role that is none
of admin, trainer, member, and a non-empty allow-list not containing that
role, the guard falls through to the sign-in redirect. -/
theorem C4_unrecognizedRole_fallsBackToAuth (u : User) (ud : UserData)
    (allowedRoles : List String) (loc : Location)
    (h1 : ud.role ≠ "admin") (h2 : ud.role ≠ "trainer") (h3 : ud.role ≠ "member")
    (h4 : allowedRoles ≠ []) (h5 : allowedRoles.contains ud.role = false) :
    (ProtectedRoute false (some u) (some ud) allowedRoles loc).1 =
      GuardResult.navigate "/auth" none true := by
  have hlen : allowedRoles.length > 0 := List.length_pos.mpr h4
  have hmem : ud.role ∉ allowedRoles := by simpa using h5
  simp [ProtectedRoute, h1, h2, h3, hmem, hlen]

/-- C4 witness: a session whose fetched role is superuser, against the
allow-list consisting of admin, is redirected to the sign-in route. -/
theorem C4_unrecognizedRole_witness :
    (ProtectedRoute false (some { id := "u3", email := "s@fit.io" })
        (some { id := "p3", email := "s@fit.io", name := "S", role := "superuser" })
        ["admin"] { pathname := "/admin" }).1 =
      GuardResult.navigate "/auth" none true :=
  C4_unrecognizedRole_fallsBackToAuth
    { id := "u3", email := "s@fit.io" }
    { id := "p3", email := "s@fit.io", name := "S", role := "superuser" }
    ["admin"] { pathname := "/admin" }
    (by decide) (by decide) (by decide) (by decide) (by decide)

/-- C5: the post-login redirect navigates only when the current path is
exactly the sign-in route; a member on the sign-in route is sent to the
member home route by the single navigation the call emits; and once the
current path starts with the home route of the fetched role no navigation
is performed. -/
theorem C5_redirectOnlyFromAuth :
    (∀ role path, (redirectBasedOnRole role path).isSome = true → path = "/auth") ∧
    redirectBasedOnRole "member" "/auth" = some "/member" ∧
    (∀ role path, (role = "admin" ∨ role = "trainer" ∨ role = "member") →
      pathStartsWith path (roleHome role) = true →
      redirectBasedOnRole role path = none) := by
  refine ⟨?_, rfl, ?_⟩
  · intro role path h
    unfold redirectBasedOnRole at h
    split at h
    · simp at h
    · split at h
      · next hpath => exact eq_of_beq hpath
      · simp at h
  · intro role path hrole hstarts
    rcases hrole with h | h | h <;>
      · subst h
        simp [roleHome] at hstarts
        simp [redirectBasedOnRole, hstarts]

/-- C5 witness: the navigation-only-from-sign-in direction instantiated at a
member on the sign-in route, and the no-further-redirect direction
instantiated at a member already inside the member area. -/
theorem C5_redirectOnlyFromAuth_witness :
    "/auth" = "/auth" ∧
    redirectBasedOnRole "member" "/member/feedback" = none :=
  ⟨C5_redirectOnlyFromAuth.1 "member" "/auth" (by decide),
   C5_redirectOnlyFromAuth.2.2 "member" "/member/feedback"
     (Or.inr (Or.inr rfl)) (by decide)⟩

/-- C6: evaluating the guard leaves the session store untouched — applying
every effect it emits returns the state unchanged, and every emitted effect
is a console log (its decision is returned as what to render, never as a
state write). -/
theorem C6_guard_preservesState (st : AuthState) (allowedRoles : List String)
    (loc : Location) :
    applyEffects st
        (ProtectedRoute st.isLoading st.user st.userData allowedRoles loc).2 = st ∧
    ((ProtectedRoute st.isLoading st.user st.userData allowedRoles loc).2.all
        isLogEffect) = true := by
  unfold ProtectedRoute
  constructor <;> (repeat' split) <;> rfl

/-- C7: a failing profile fetch — the backend returning an error object or
the query throwing — logs the error and stores a null profile, and nothing
else: the effect list is exactly that, so no navigation and no retry happen
and session, identity and loading flag are left unchanged. -/
theorem C7_fetchFailure_leavesNullProfile (st : AuthState) (path e : String) :
    fetchUserData (FetchOutcome.errorResult e) path =
      [Effect.logError ("Error fetching user data: " ++ e),
       Effect.setUserData none] ∧
    fetchUserData (FetchOutcome.thrown e) path =
      fetchUserData (FetchOutcome.errorResult e) path ∧
    (applyEffects st (fetchUserData (FetchOutcome.errorResult e) path)).userData
      = none ∧
    (applyEffects st (fetchUserData (FetchOutcome.errorResult e) path)).session
      = st.session ∧
    (applyEffects st (fetchUserData (FetchOutcome.errorResult e) path)).user
      = st.user ∧
    (applyEffects st (fetchUserData (FetchOutcome.errorResult e) path)).isLoading
      = st.isLoading ∧
    (∀ t, Effect.navigate t ∉ fetchUserData (FetchOutcome.errorResult e) path) := by
  refine ⟨rfl, rfl, rfl, rfl, rfl, rfl, ?_⟩
  intro t
  simp [fetchUserData]

/-- Reducing a payment list with addition from 0 computes the sum of the
amounts. -/
theorem foldl_amount_eq_sum (l : List Payment) (a : ℚ) :
    l.foldl (fun total payment => total + payment.amount) a =
      a + (l.map Payment.amount).sum := by
  induction l generalizing a with
  | nil => simp
  | cons p rest ih => simp [List.foldl, ih, add_assoc]

/-- The count stored in an association list under key `t`, 0 when absent. -/
def keyCount (acc : List (String × Nat)) (t : String) : Nat :=
  match acc with
  | [] => 0
  | (k, v) :: rest => if k = t then v else keyCount rest t

/-- Bumping key `t` increments its stored count and leaves the others. -/
theorem keyCount_bump (acc : List (String × Nat)) (t t2 : String) :
    keyCount (bump acc t) t2 =
      if t2 = t then keyCount acc t2 + 1 else keyCount acc t2 := by
  induction acc with
  | nil =>
    by_cases h : t2 = t
    · subst h
      simp [bump, keyCount]
    · simp [bump, keyCount, h, Ne.symm h]
  | cons p rest ih =>
    obtain ⟨k, v⟩ := p
    by_cases hk : k = t
    · subst hk
      by_cases h2 : t2 = k
      · subst h2
        simp [bump, keyCount]
      · simp [bump, keyCount, h2, Ne.symm h2]
    · have hk2 : (k == t) = false := by simpa using hk
      by_cases h2 : t2 = k
      · subst h2
        have hnt : ¬ t2 = t := hk
        simp [bump, hk2, keyCount, hnt]
      · simp [bump, hk2, keyCount, h2, Ne.symm h2, ih]

/-- Folding the count step over rows adds the contribution of each row to the
association list. -/
theorem keyCount_foldl (rows : List (Option String))
    (acc : List (String × Nat)) (t : String) :
    keyCount (rows.foldl countStep acc) t = keyCount acc t + memberCountOf rows t := by
  induction rows generalizing acc with
  | nil => simp [memberCountOf]
  | cons r rest ih =>
    cases r with
    | none =>
      simp [List.foldl, countStep, ih, memberCountOf, List.countP_cons]
    | some t2 =>
      simp only [List.foldl, countStep, ih, memberCountOf, List.countP_cons]
      rw [keyCount_bump]
      by_cases h : t = t2
      · subst h
        simp
        omega
      · have hne : (some t2 == some t) = false := by
          simpa using Ne.symm h
        simp [h, hne]

/-- The record built from the rows stores, under each trainer, the number of
rows referencing that trainer. -/
theorem keyCount_trainerCounts (rows : List (Option String)) (t : String) :
    keyCount (trainerCounts rows) t = memberCountOf rows t := by
  simpa [trainerCounts, keyCount] using keyCount_foldl rows [] t

/-- Bumping either keeps the key list or appends the new key at the end. -/
theorem keys_bump (acc : List (String × Nat)) (t : String) :
    (bump acc t).map Prod.fst =
      if t ∈ acc.map Prod.fst then acc.map Prod.fst
      else acc.map Prod.fst ++ [t] := by
  induction acc with
  | nil => simp [bump]
  | cons p rest ih =>
    obtain ⟨k, v⟩ := p
    by_cases hk : k = t
    · subst hk
      simp [bump]
    · have hk2 : (k == t) = false := by simpa using hk
      have hne : ¬ t = k := fun hh => hk (Eq.symm hh)
      by_cases hm : t ∈ rest.map Prod.fst <;>
        simp [bump, hk2, ih, hm, hne]

/-- Bumping preserves distinctness of the keys. -/
theorem nodup_keys_bump (acc : List (String × Nat)) (t : String)
    (h : (acc.map Prod.fst).Nodup) : ((bump acc t).map Prod.fst).Nodup := by
  rw [keys_bump]
  by_cases hm : t ∈ acc.map Prod.fst
  · simpa [hm] using h
  · simp only [hm, if_false]
    rw [← List.concat_eq_append]
    exact h.concat hm

/-- Every record reachable by the counting fold from a distinct-keyed record
has distinct keys. -/
theorem nodup_keys_foldl (rows : List (Option String))
    (acc : List (String × Nat)) (h : (acc.map Prod.fst).Nodup) :
    ((rows.foldl countStep acc).map Prod.fst).Nodup := by
  induction rows generalizing acc with
  | nil => simpa using h
  | cons r rest ih =>
    cases r with
    | none => exact ih acc h
    | some t => exact ih (bump acc t) (nodup_keys_bump acc t h)

/-- The record built by `fetchTopTrainer` has distinct keys. -/
theorem nodup_keys_trainerCounts (rows : List (Option String)) :
    ((trainerCounts rows).map Prod.fst).Nodup :=
  nodup_keys_foldl rows [] (by simp)

/-- In a distinct-keyed record, a present entry is the stored count. -/
theorem keyCount_of_mem (acc : List (String × Nat)) (t : String) (c : Nat)
    (h : (acc.map Prod.fst).Nodup) (hm : (t, c) ∈ acc) :
    keyCount acc t = c := by
  induction acc with
  | nil => simp at hm
  | cons p rest ih =>
    obtain ⟨k, v⟩ := p
    rcases List.mem_cons.mp hm with he | hrest
    · obtain ⟨h1, h2⟩ := Prod.mk.injEq .. ▸ he
      simp [keyCount, h1.symm, h2]
    · have hk : k ≠ t := by
        intro hkt
        subst hkt
        have : k ∈ rest.map Prod.fst :=
          List.mem_map.mpr ⟨(k, c), hrest, rfl⟩
        exact (List.nodup_cons.mp (by simpa using h)).1 this
      have := ih (List.nodup_cons.mp (by simpa using h)).2 hrest
      simpa [keyCount, hk]

/-- A key with a positive stored count occurs in the record with exactly
that count. -/
theorem keyCount_pos_mem (acc : List (String × Nat)) (t : String)
    (h : 0 < keyCount acc t) : (t, keyCount acc t) ∈ acc := by
  induction acc with
  | nil => simp [keyCount] at h
  | cons p rest ih =>
    obtain ⟨k, v⟩ := p
    by_cases hk : k = t
    · subst hk
      simp [keyCount]
    · have h2 : 0 < keyCount rest t := by simpa [keyCount, hk] using h
      have := ih h2
      simp [keyCount, hk] at this ⊢
      right
      exact this

/-- The strict-greater fold of `fetchTopTrainer` either keeps its seed, when
no entry beats it, or returns the first entry holding the running maximum:
everything before it counts strictly less, everything after it at most as
much. -/
theorem pickTopAux_spec (l : List (String × Nat)) (top0 : Option String)
    (mx0 : Nat) :
    ((∀ p ∈ l, p.2 ≤ mx0) ∧ pickTopAux (top0, mx0) l = (top0, mx0)) ∨
    (∃ l1 t mx l2, l = l1 ++ (t, mx) :: l2 ∧
      pickTopAux (top0, mx0) l = (some t, mx) ∧ mx0 < mx ∧
      (∀ p ∈ l1, p.2 < mx) ∧ (∀ p ∈ l2, p.2 ≤ mx)) := by
  induction l generalizing top0 mx0 with
  | nil => exact Or.inl ⟨by simp, rfl⟩
  | cons p rest ih =>
    obtain ⟨t, c⟩ := p
    by_cases hc : c > mx0
    · have hstep : pickTopAux (top0, mx0) ((t, c) :: rest) =
          pickTopAux (some t, c) rest := by
        simp [pickTopAux, hc]
      rcases ih (some t) c with ⟨hall, heq⟩ | ⟨r1, t2, mx2, r2, hsplit, heq, hlt, hbefore, hafter⟩
      · refine Or.inr ⟨[], t, c, rest, by simp, ?_, hc, by simp, hall⟩
        rw [hstep, heq]
      · refine Or.inr ⟨(t, c) :: r1, t2, mx2, r2, by simp [hsplit], ?_,
          lt_trans hc hlt, ?_, hafter⟩
        · rw [hstep, heq]
        · intro q hq
          rcases List.mem_cons.mp hq with he | hr
          · simpa [he] using hlt
          · exact hbefore q hr
    · have hcle : c ≤ mx0 := Nat.le_of_not_lt hc
      have hstep : pickTopAux (top0, mx0) ((t, c) :: rest) =
          pickTopAux (top0, mx0) rest := by
        simp [pickTopAux, hc]
      rcases ih top0 mx0 with ⟨hall, heq⟩ | ⟨r1, t2, mx2, r2, hsplit, heq, hlt, hbefore, hafter⟩
      · refine Or.inl ⟨?_, by rw [hstep, heq]⟩
        intro q hq
        rcases List.mem_cons.mp hq with he | hr
        · simpa [he] using hcle
        · exact hall q hr
      · refine Or.inr ⟨(t, c) :: r1, t2, mx2, r2, by simp [hsplit], by rw [hstep, heq],
          hlt, ?_, hafter⟩
        intro q hq
        rcases List.mem_cons.mp hq with he | hr
        · have : c < mx2 := lt_of_le_of_lt hcle hlt
          simpa [he] using this
        · exact hbefore q hr

/-- Rows without any assigned trainer build the empty record. -/
theorem trainerCounts_all_none (rows : List (Option String))
    (h : ∀ r ∈ rows, r = none) : trainerCounts rows = [] := by
  have aux : ∀ (l : List (Option String)) (acc : List (String × Nat)),
      (∀ r ∈ l, r = none) → l.foldl countStep acc = acc := by
    intro l
    induction l with
    | nil => intro acc _; rfl
    | cons r rest ih =>
      intro acc hall
      have hr : r = none := hall r (by simp)
      subst hr
      exact ih acc (fun q hq => hall q (by simp [hq]))
  exact aux rows [] h

/-- C9: the top-trainer aggregate: when no fetched member row has an
assigned trainer nothing is selected (the dashboard keeps its N/A default);
a selected trainer has a member count equal to the reported maximum, no
trainer counts more, and the selected entry is the first one of the
per-trainer count enumeration achieving that maximum (everything before it
counts strictly less — the strict greater-than comparison); and whenever
some row has an assigned trainer, a top trainer is selected. -/
theorem C9_topTrainer (rows : List (Option String)) :
    ((∀ r ∈ rows, r = none) → fetchTopTrainer rows = (none, 0)) ∧
    (∀ t mx, fetchTopTrainer rows = (some t, mx) →
      memberCountOf rows t = mx ∧
      (∀ t2, memberCountOf rows t2 ≤ mx) ∧
      (∃ l1 l2, trainerCounts rows = l1 ++ (t, mx) :: l2 ∧
        (∀ p ∈ l1, p.2 < mx) ∧ (∀ p ∈ l2, p.2 ≤ mx))) ∧
    ((∃ r ∈ rows, r ≠ none) →
      ∃ t mx, fetchTopTrainer rows = (some t, mx)) := by
  refine ⟨?_, ?_, ?_⟩
  · intro h
    rw [fetchTopTrainer, trainerCounts_all_none rows h]
    rfl
  · intro t mx heq
    have heq2 : pickTopAux (none, 0) (trainerCounts rows) = (some t, mx) := heq
    rcases pickTopAux_spec (trainerCounts rows) none 0 with
      ⟨hall, hres⟩ | ⟨l1, t2, mx2, l2, hsplit, hres, hpos, hbef, haft⟩
    · rw [hres] at heq2
      simp at heq2
    · rw [hres] at heq2
      obtain ⟨ht, hmx⟩ : t2 = t ∧ mx2 = mx := by
        constructor
        · exact Option.some.inj (congrArg Prod.fst heq2)
        · exact congrArg Prod.snd heq2
      subst ht
      subst hmx
      have hmem : (t2, mx2) ∈ trainerCounts rows := by
        rw [hsplit]
        simp
      refine ⟨?_, ?_, l1, l2, hsplit, hbef, haft⟩
      · rw [← keyCount_trainerCounts]
        exact keyCount_of_mem _ _ _ (nodup_keys_trainerCounts rows) hmem
      · intro t3
        rw [← keyCount_trainerCounts]
        by_cases h0 : 0 < keyCount (trainerCounts rows) t3
        · have hm3 := keyCount_pos_mem (trainerCounts rows) t3 h0
          generalize hgen : keyCount (trainerCounts rows) t3 = kc at hm3 ⊢
          rw [hsplit] at hm3
          rcases List.mem_append.mp hm3 with h1 | h1
          · exact le_of_lt (hbef _ h1)
          · rcases List.mem_cons.mp h1 with he | h2
            · exact le_of_eq (congrArg Prod.snd he)
            · exact haft _ h2
        · omega
  · rintro ⟨r, hr, hne⟩
    cases r with
    | none => exact absurd rfl hne
    | some t3 =>
      have hcnt : 0 < memberCountOf rows t3 := by
        rw [memberCountOf]
        exact List.countP_pos_iff.mpr ⟨some t3, hr, by simp⟩
      have hkc : 0 < keyCount (trainerCounts rows) t3 := by
        rw [keyCount_trainerCounts]
        exact hcnt
      have hm := keyCount_pos_mem _ _ hkc
      rcases pickTopAux_spec (trainerCounts rows) none 0 with
        ⟨hall, hres⟩ | ⟨l1, t2, mx2, l2, _, hres, _, _, _⟩
      · have := hall _ hm
        omega
      · exact ⟨t2, mx2, hres⟩

/-- C9 witness: a member list with no assigned trainer selects no top
trainer. -/
theorem C9_topTrainer_witness : fetchTopTrainer [none] = (none, 0) :=
  (C9_topTrainer [none]).1 (by simp)

/-- C8: the total-revenue aggregate is the sum of the amount field over the
fetched payment rows, 0 on the empty list, and on a fetch error it yields
the 0 default while logging the error. -/
theorem C8_totalRevenue_sum (data : List Payment) (e : String) :
    (totalRevenue (Except.ok data)).1 = (data.map Payment.amount).sum ∧
    (totalRevenue (Except.ok [])).1 = 0 ∧
    (totalRevenue (Except.error e)).1 = 0 ∧
    (totalRevenue (Except.error e)).2 =
      [Effect.logError ("Error fetching payments: " ++ e)] := by
  refine ⟨?_, rfl, rfl, rfl⟩
  simp [totalRevenue, foldl_amount_eq_sum]

/-- C10: the check-in/check-out toggle.  After every successful refresh of
the attendance history, `isCheckedIn` holds exactly when some fetched record
has a null check-out time, and then `currentAttendanceId` is the id of the
record the search found; when `isCheckedIn` is false the id is null.
Check-in inserts a row carrying the check-in time and a null check-out time,
sets the pair to true and the new id, and refreshes.  Check-out with a
non-null `currentAttendanceId` stamps the check-out time onto exactly the
row with that id, resets the pair to false and null, and refreshes; with a
null id it is a no-op. -/
theorem C10_attendanceToggle :
    (∀ (st : MemberState) (data : List AttendanceRecord),
      (fetchAttendanceHistory st (Except.ok data)).isCheckedIn = true ↔
        ∃ r ∈ data, r.check_out_time = none) ∧
    (∀ (st : MemberState) (data : List AttendanceRecord) (r : AttendanceRecord),
      data.find? (fun record => record.check_out_time.isNone) = some r →
      (fetchAttendanceHistory st (Except.ok data)).isCheckedIn = true ∧
      (fetchAttendanceHistory st (Except.ok data)).currentAttendanceId =
        some r.id) ∧
    (∀ (st : MemberState) (data : List AttendanceRecord),
      (fetchAttendanceHistory st (Except.ok data)).isCheckedIn = false →
      (fetchAttendanceHistory st (Except.ok data)).currentAttendanceId = none) ∧
    (∀ (st : MemberState) (ud : UserData) (db : List AttendanceRecord)
        (now rowId : String) (refetch : Except String (List AttendanceRecord)),
      (newAttendanceRow ud.id now rowId).check_in_time = now ∧
      (newAttendanceRow ud.id now rowId).check_out_time = none ∧
      handleCheckIn st (some ud) db now rowId true refetch =
        (fetchAttendanceHistory
            { st with isCheckedIn := true, currentAttendanceId := some rowId }
            refetch,
          db ++ [newAttendanceRow ud.id now rowId])) ∧
    (∀ (st : MemberState) (db : List AttendanceRecord) (now aid : String)
        (refetch : Except String (List AttendanceRecord)),
      st.currentAttendanceId = some aid →
      handleCheckOut st db now true refetch =
        (fetchAttendanceHistory
            { st with isCheckedIn := false, currentAttendanceId := none }
            refetch,
          dbCheckOut db aid now) ∧
      (∀ r ∈ db, r.id = aid →
        { r with check_out_time := some now } ∈ dbCheckOut db aid now) ∧
      (∀ r ∈ db, r.id ≠ aid → r ∈ dbCheckOut db aid now)) ∧
    (∀ (st : MemberState) (db : List AttendanceRecord) (now : String)
        (updateOk : Bool) (refetch : Except String (List AttendanceRecord)),
      st.currentAttendanceId = none →
      handleCheckOut st db now updateOk refetch = (st, db)) := by
  refine ⟨?_, ?_, ?_, ?_, ?_, ?_⟩
  · intro st data
    cases hf : data.find? (fun record => record.check_out_time.isNone) with
    | none =>
      have hnone := List.find?_eq_none.mp hf
      simp [fetchAttendanceHistory, hf]
      intro r hr
      simpa using hnone r hr
    | some r =>
      have hmem := List.mem_of_find?_eq_some hf
      have hsat := List.find?_some hf
      simp [fetchAttendanceHistory, hf]
      exact ⟨r, hmem, Option.isNone_iff_eq_none.mp hsat⟩
  · intro st data r hf
    simp [fetchAttendanceHistory, hf]
  · intro st data h
    cases hf : data.find? (fun record => record.check_out_time.isNone) with
    | none => simp [fetchAttendanceHistory, hf]
    | some r => simp [fetchAttendanceHistory, hf] at h
  · intro st ud db now rowId refetch
    exact ⟨rfl, rfl, rfl⟩
  · intro st db now aid refetch h
    refine ⟨by simp [handleCheckOut, h], ?_, ?_⟩
    · intro r hr hid
      exact List.mem_map.mpr ⟨r, hr, by simp [dbCheckOut, hid]⟩
    · intro r hr hid
      exact List.mem_map.mpr ⟨r, hr, by simp [dbCheckOut, hid]⟩
  · intro st db now updateOk refetch h
    simp [handleCheckOut, h]

/-- C10 witness: refreshing over a single open record turns the toggle on
with the id of that record, and a check-out with a null current id is a
no-op. -/
theorem C10_attendanceToggle_witness :
    (fetchAttendanceHistory
        { isCheckedIn := false, currentAttendanceId := none,
          attendanceHistory := [] }
        (Except.ok [{ id := "a1", member_id := "m1", check_in_time := "t1",
                      check_out_time := none }])).isCheckedIn = true ∧
    (fetchAttendanceHistory
        { isCheckedIn := false, currentAttendanceId := none,
          attendanceHistory := [] }
        (Except.ok [{ id := "a1", member_id := "m1", check_in_time := "t1",
                      check_out_time := none }])).currentAttendanceId =
      some "a1" ∧
    handleCheckOut
        { isCheckedIn := false, currentAttendanceId := none,
          attendanceHistory := [] }
        [] "t2" true (Except.ok []) =
      ({ isCheckedIn := false, currentAttendanceId := none,
         attendanceHistory := [] }, []) := by
  have h2 := C10_attendanceToggle.2.1
    { isCheckedIn := false, currentAttendanceId := none,
      attendanceHistory := [] }
    [{ id := "a1", member_id := "m1", check_in_time := "t1",
       check_out_time := none }]
    { id := "a1", member_id := "m1", check_in_time := "t1",
      check_out_time := none }
    (by decide)
  have h6 := C10_attendanceToggle.2.2.2.2.2
    { isCheckedIn := false, currentAttendanceId := none,
      attendanceHistory := [] }
    [] "t2" true (Except.ok []) rfl
  exact ⟨h2.1, h2.2, h6⟩

end FitHub
